import Mathlib

/-!
Verification of the thirst core of `arc_realistic_survival.py` (plus
`SettingManager.py`), shallowly embedded in Lean 4.  Python floats are
modelled as rationals, the per-player dictionaries as option-valued maps,
and the SQLite table as a list of rows.
-/

namespace ARS

/-- Process-wide thirst configuration: the fields `thirst_decay_per_second`,
`thirst_moving_multiplier` and `thirst_initial` of the plugin object. -/
structure ThirstConfig where
  decayPerSecond : ℚ
  movingMultiplier : ℚ
  initialLevel : ℚ
  deriving DecidableEq

/-- `_clamp_thirst`: `max(0.0, min(100.0, value))`. -/
def clampThirst (value : ℚ) : ℚ := max 0 (min 100 value)

/-- Per-player mutable state touched by the thirst system:
`thirst_damage_timer` (shared counter, carried here because the tick reads
and resets it), the player's entry in `player_xuid_to_thirst` (`none` when
the xuid is not a key of the dict), the player's entry in
`player_moving_flags` (missing key modelled as `false`), and
`player.health`. -/
structure PlayerState where
  timer : ℕ
  level : Option ℚ
  moving : Bool
  health : ℚ
  deriving DecidableEq

/-- `_apply_thirst_delta`: read the current level (defaulting to
`thirst_initial` when the xuid is absent), clamp `current + delta`, store
it back.  The tip side effect does not change the stored state. -/
def applyThirstDelta (cfg : ThirstConfig) (s : PlayerState) (delta : ℚ) : PlayerState :=
  { s with level := some (clampThirst (s.level.getD cfg.initialLevel + delta)) }

/-- `_apply_thirst_damage`: returns whether the damage side effect is
applied.  It no-ops when the player has no positive health or when the
re-read current thirst (defaulting to `thirst_initial`) is above 0. -/
def thirstDamageFires (cfg : ThirstConfig) (health : ℚ) (level : Option ℚ) : Bool :=
  if health ≤ 0 then false
  else if 0 < level.getD cfg.initialLevel then false
  else true

/-- One invocation of the `tick` closure of `_start_thirst_timer`,
restricted to a single player: increment `thirst_damage_timer`, compute
the decay from the moving flag, apply it through `_apply_thirst_delta`
when it is positive, run the 10-second damage check against the
post-decay level, clear the moving flag, and reset the timer when it
reached 10.  The second component records whether `_apply_thirst_damage`
actually applied damage this tick. -/
def tickOnce (cfg : ThirstConfig) (s : PlayerState) : PlayerState × Bool :=
  let t1 := s.timer + 1
  let base := cfg.decayPerSecond
  let decay := if s.moving then base * cfg.movingMultiplier else base
  let s1 := if 0 < decay then applyThirstDelta cfg s (-decay) else s
  let fired :=
    if 10 ≤ t1 then
      if s1.level.getD cfg.initialLevel ≤ 0 then thirstDamageFires cfg s1.health s1.level
      else false
    else false
  (⟨if 10 ≤ t1 then 0 else t1, s1.level, false, s1.health⟩, fired)

/-- The pure decay policy extracted from lines 906–912 of the tick body:
the net change applied to the stored level by the decay step of one tick
(`-decay` when `decay > 0`, otherwise no write, hence `0`). -/
def tickDecayDelta (cfg : ThirstConfig) (moving : Bool) : ℚ :=
  let base := cfg.decayPerSecond
  let decay := if moving then base * cfg.movingMultiplier else base
  if 0 < decay then -decay else 0

/-- The public write operations on one player's thirst state:
a scheduler tick, a consumption delta (`on_player_item_consume`),
a movement signal (`on_player_move`), the death reset
(`on_actor_death`), and the attach load (`_load_player_thirst`, whose
durable-row argument is the queried row's thirst, `none` when no row
exists). -/
inductive WriteOp where
  | tick
  | consume (delta : ℚ)
  | move
  | deathReset
  | attachLoad (row : Option ℚ)
  deriving DecidableEq

/-- Effect of one public operation on the player's state, each branch
transcribed from the corresponding handler. -/
def stepOp (cfg : ThirstConfig) (s : PlayerState) : WriteOp → PlayerState
  | WriteOp.tick => (tickOnce cfg s).1
  | WriteOp.consume delta => applyThirstDelta cfg s delta
  | WriteOp.move => { s with moving := true }
  | WriteOp.deathReset => { s with level := some cfg.initialLevel }
  | WriteOp.attachLoad none => { s with level := some cfg.initialLevel }
  | WriteOp.attachLoad (some v) => { s with level := some v }

/-- Run a sequence of public operations, left to right. -/
def runOps (cfg : ThirstConfig) (ops : List WriteOp) (s : PlayerState) : PlayerState :=
  ops.foldl (stepOp cfg) s

/-- Iterate the tick `n` times from a starting state. -/
def iterTick (cfg : ThirstConfig) (s : PlayerState) : ℕ → PlayerState
  | 0 => s
  | n + 1 => (tickOnce cfg (iterTick cfg s n)).1

/-- Whether the damage side effect fires on the `(n+1)`-st tick of a run
started at `s`. -/
def firedAt (cfg : ThirstConfig) (s : PlayerState) (n : ℕ) : Bool :=
  (tickOnce cfg (iterTick cfg s n)).2

/-- One row of the `player_thirst` table (`xuid` is its primary key). -/
structure ThirstRow where
  xuid : String
  playerName : String
  thirst : ℚ
  updatedAt : ℕ
  deriving DecidableEq

/-- The `player_thirst` table, as its list of rows. -/
abbrev ThirstDB := List ThirstRow

/-- `query_one("SELECT ... FROM player_thirst WHERE xuid=?", (xuid,))`. -/
def queryThirst (db : ThirstDB) (x : String) : Option ThirstRow :=
  db.find? (fun r => r.xuid == x)

/-- All durable records of one identity. -/
def rowsFor (db : ThirstDB) (x : String) : List ThirstRow :=
  db.filter (fun r => r.xuid == x)

/-- The in-memory `player_xuid_to_thirst` dict, one optional level per
xuid. -/
abbrev ThirstMem := String → Option ℚ

/-- Dict assignment `player_xuid_to_thirst[xuid] = v`. -/
def memSet (mem : ThirstMem) (x : String) (v : ℚ) : ThirstMem :=
  fun y => if y = x then some v else mem y

/-- `_load_player_thirst`: query the durable record by xuid; if absent,
store `thirst_initial` in memory and insert one new row; if present,
adopt the stored level into memory and leave the table unchanged.  The
first component is the returned level
(`self.player_xuid_to_thirst[xuid]`). -/
def loadPlayerThirst (cfg : ThirstConfig) (db : ThirstDB) (mem : ThirstMem)
    (x pname : String) (now : ℕ) : ℚ × ThirstMem × ThirstDB :=
  match queryThirst db x with
  | none =>
      (cfg.initialLevel, memSet mem x cfg.initialLevel,
        db ++ [⟨x, pname, cfg.initialLevel, now⟩])
  | some row => (row.thirst, memSet mem x row.thirst, db)

/-- `_persist_player_thirst`: read the in-memory level (defaulting to
`thirst_initial`), then insert a new row when no record exists for the
xuid, otherwise update name, level and timestamp of every row matching
`xuid=?`. -/
def persistPlayerThirst (cfg : ThirstConfig) (db : ThirstDB) (mem : ThirstMem)
    (x pname : String) (now : ℕ) : ThirstDB :=
  let thirst := (mem x).getD cfg.initialLevel
  match queryThirst db x with
  | none => db ++ [⟨x, pname, thirst, now⟩]
  | some _ => db.map (fun r => if r.xuid == x
      then { r with playerName := pname, thirst := thirst, updatedAt := now }
      else r)

/-- A player of the tick's entity loop together with whether its
per-entity processing raises an exception this tick (e.g. a failing
`send_tip` inside `_apply_thirst_delta`). -/
structure TickEntity where
  ident : String
  raises : Bool
  deriving DecidableEq

/-- The `for player in self.server.online_players` loop of the tick body,
without the outer catch: players are processed in order and an exception
raised for one player propagates out of the loop, stopping it.  Returns
the identities whose processing completed and the propagated exception's
origin, if any. -/
def runTickLoop : List TickEntity → List String × Option String
  | [] => ([], none)
  | e :: rest =>
      if e.raises then ([], some e.ident)
      else
        let r := runTickLoop rest
        (e.ident :: r.1, r.2)

/-- The whole tick body with its outer `try/except`: a propagated
exception is caught and logged (`thirst timer error`), so the call always
returns normally.  The flag records whether an error was logged. -/
def tickBodyCaught (ents : List TickEntity) : List String × Bool :=
  let r := runTickLoop ents
  (r.1, r.2.isSome)

/-- A scheduler run over successive intervals: every interval executes
its tick body with the catch in place, so a failing tick never stops the
later ones. -/
def runScheduler (intervals : List (List TickEntity)) : List (List String × Bool) :=
  intervals.map tickBodyCaught

/-- What `GetSetting` followed by `float(...)` yields for one key:
`absent` when `GetSetting` returned `None` or the value is the empty
string, `unparsable` when `float(val)` raises `ValueError`, `value q`
when it parses. -/
inductive ConfigVal where
  | absent
  | unparsable
  | value (q : ℚ)
  deriving DecidableEq

/-- The three thirst settings as read from the settings store. -/
structure SettingsStore where
  decayVal : ConfigVal
  multVal : ConfigVal
  initVal : ConfigVal
  deriving DecidableEq

/-- Outcome of `_load_thirst_settings`: the resulting configuration
fields, which defaults were written back via `SetSetting`, and whether
the surrounding `except` logged an error. -/
structure LoadResult where
  cfg : ThirstConfig
  wroteDecayDefault : Bool
  wroteMultDefault : Bool
  wroteInitDefault : Bool
  errored : Bool
  deriving DecidableEq

/-- Third step of `_load_thirst_settings`: the `thirst_initial` block.
An unparsable value raises into the function-wide handler; a missing or
empty value is defaulted to `100.0` and written back; a parsed value is
stored unclamped. -/
def loadInitStep (st : SettingsStore) (c2 : ThirstConfig)
    (wd wm : Bool) : LoadResult :=
  match st.initVal with
  | ConfigVal.unparsable => ⟨c2, wd, wm, false, true⟩
  | ConfigVal.absent => ⟨{ c2 with initialLevel := 100 }, wd, wm, true, false⟩
  | ConfigVal.value q => ⟨{ c2 with initialLevel := q }, wd, wm, false, false⟩

/-- Second step of `_load_thirst_settings`: the `thirst_moving_multiplier`
block.  A parsed value is stored as `max(1.0, v)`; an unparsable value
aborts before the `thirst_initial` block runs. -/
def loadMultStep (st : SettingsStore) (c1 : ThirstConfig) (wd : Bool) : LoadResult :=
  match st.multVal with
  | ConfigVal.unparsable => ⟨c1, wd, false, false, true⟩
  | ConfigVal.absent => loadInitStep st { c1 with movingMultiplier := 2 } wd true
  | ConfigVal.value q => loadInitStep st { c1 with movingMultiplier := max 1 q } wd false

/-- `_load_thirst_settings`: process the three settings in order inside
one `try`; the `thirst_decay_per_second` value is stored as
`max(0.0, v)`; the first unparsable value raises, aborting the rest of
the function with only a logged error, so the remaining fields keep
their previous values and their defaults are not written. -/
def loadThirstSettings (st : SettingsStore) (old : ThirstConfig) : LoadResult :=
  match st.decayVal with
  | ConfigVal.unparsable => ⟨old, false, false, false, true⟩
  | ConfigVal.absent => loadMultStep st { old with decayPerSecond := 1/10 } true
  | ConfigVal.value q => loadMultStep st { old with decayPerSecond := max 0 q } false

/-- State of the fallback `_ArcTimer` across its two unsynchronised
threads: the `_stop` flag, whether a one-shot `threading.Timer` is
currently armed, whether a dispatched `_run` is executing the target,
and whether the worker thread is inside `_schedule` between the
`if self._stop: return` check (which it saw pass) and the creation and
start of the next timer.  The last component makes the unlocked
cross-thread interleaving of `cancel` with `_schedule` expressible. -/
structure TimerSt where
  stopFlag : Bool
  armed : Bool
  running : Bool
  scheduling : Bool
  deriving DecidableEq

/-- The statements of the fallback timer at the granularity at which its
two threads interleave: an armed timer expires and dispatches `_run`
(`fire`); the target returns and `_schedule`, called from the `finally`,
evaluates `if self._stop: return` (`finishCheck`) — when the check
passes, the worker is left about to arm; the worker runs
`self._timer = threading.Timer(...)` and `.start()`, with no second
look at `_stop` (`arm`); `cancel()` sets `_stop` and cancels the timer
object currently referenced by `self._timer` (`cancel`). -/
inductive TimerAct where
  | fire
  | finishCheck
  | arm
  | cancel
  deriving DecidableEq

/-- One atomic statement of the fallback timer; `none` when the event
cannot occur in that state (nothing armed to fire, no run to finish, no
pending arm). -/
def timerStep (s : TimerSt) : TimerAct → Option TimerSt
  | TimerAct.fire =>
      if s.armed then some ⟨s.stopFlag, false, true, s.scheduling⟩ else none
  | TimerAct.finishCheck =>
      if s.running then
        some ⟨s.stopFlag, s.armed, false, if s.stopFlag then s.scheduling else true⟩
      else none
  | TimerAct.arm =>
      if s.scheduling then some ⟨s.stopFlag, true, s.running, false⟩ else none
  | TimerAct.cancel => some ⟨true, false, s.running, s.scheduling⟩

/-- Execute a sequence of timer events; `none` when some event was not
possible. -/
def runTimer : TimerSt → List TimerAct → Option TimerSt
  | s, [] => some s
  | s, a :: rest =>
      match timerStep s a with
      | none => none
      | some s' => runTimer s' rest

/-- The state after the `_ArcTimer` constructor: not stopped, first
timer armed (the constructor's `_schedule` completes before any other
thread can call `cancel`), worker idle. -/
def timerInit : TimerSt := ⟨false, true, false, false⟩

/-- The in-memory `SettingManager.setting_dict`, an association list of
key/value pairs. -/
abbrev SettingDict := List (String × String)

/-- `key in SettingManager.setting_dict`. -/
def dictHas (d : SettingDict) (k : String) : Bool :=
  d.any (fun p => p.1 == k)

/-- `SettingManager.setting_dict[key]`, for a key known to be present
(defaults to the empty string otherwise, which is how a just-created key
reads). -/
def dictGet (d : SettingDict) (k : String) : String :=
  ((d.find? (fun p => p.1 == k)).map (fun p => p.2)).getD ""

/-- `SettingManager.GetSetting`: a missing key is first appended with an
empty value (to the dict and the settings file); then the stored value is
returned, with a falsy (empty) value replaced by `None`. -/
def GetSetting (d : SettingDict) (k : String) : Option String × SettingDict :=
  let d' := if dictHas d k then d else d ++ [(k, "")]
  let v := dictGet d' k
  (if v = "" then none else some v, d')

/-- The stored level, when present, lies in `[0, 100]`. -/
def LevelOK (s : PlayerState) : Prop :=
  ∀ v, s.level = some v → 0 ≤ v ∧ v ≤ 100

/-! ### Basic clamp lemmas -/

theorem clampThirst_nonneg (v : ℚ) : 0 ≤ clampThirst v := le_max_left 0 _

theorem clampThirst_le_hundred (v : ℚ) : clampThirst v ≤ 100 :=
  max_le (by norm_num) (min_le_left _ _)

theorem clampThirst_of_nonpos {v : ℚ} (h : v ≤ 0) : clampThirst v = 0 := by
  unfold clampThirst
  rw [min_eq_right (h.trans (by norm_num))]
  exact max_eq_left h

theorem clampThirst_of_ge {v : ℚ} (h : 100 ≤ v) : clampThirst v = 100 := by
  unfold clampThirst
  rw [min_eq_left h]
  exact max_eq_right (by norm_num)

/-! ### Level-range invariant -/

theorem levelOK_applyThirstDelta (cfg : ThirstConfig) (s : PlayerState) (delta : ℚ) :
    LevelOK (applyThirstDelta cfg s delta) := by
  intro v hv
  simp only [applyThirstDelta, Option.some.injEq] at hv
  exact hv ▸ ⟨clampThirst_nonneg _, clampThirst_le_hundred _⟩

theorem tickOnce_fst_level (cfg : ThirstConfig) (s : PlayerState) :
    (tickOnce cfg s).1.level =
      (if 0 < (if s.moving then cfg.decayPerSecond * cfg.movingMultiplier
               else cfg.decayPerSecond)
       then applyThirstDelta cfg s
          (-(if s.moving then cfg.decayPerSecond * cfg.movingMultiplier
             else cfg.decayPerSecond))
       else s).level := by
  by_cases h : 0 < (if s.moving then cfg.decayPerSecond * cfg.movingMultiplier
      else cfg.decayPerSecond)
  · simp [tickOnce, h]
  · simp [tickOnce, h]

theorem levelOK_tickOnce (cfg : ThirstConfig) {s : PlayerState} (hs : LevelOK s) :
    LevelOK (tickOnce cfg s).1 := by
  intro v hv
  rw [tickOnce_fst_level] at hv
  by_cases h : 0 < (if s.moving then cfg.decayPerSecond * cfg.movingMultiplier
      else cfg.decayPerSecond)
  · rw [if_pos h] at hv
    exact levelOK_applyThirstDelta cfg s _ v hv
  · rw [if_neg h] at hv
    exact hs v hv

theorem levelOK_stepOp (cfg : ThirstConfig) {s : PlayerState} (hs : LevelOK s)
    (op : WriteOp)
    (hinit : 0 ≤ cfg.initialLevel ∧ cfg.initialLevel ≤ 100)
    (hrow : ∀ v, op = WriteOp.attachLoad (some v) → 0 ≤ v ∧ v ≤ 100) :
    LevelOK (stepOp cfg s op) := by
  cases op with
  | tick => exact levelOK_tickOnce cfg hs
  | consume delta => exact levelOK_applyThirstDelta cfg s delta
  | move => exact fun v hv => hs v hv
  | deathReset =>
      intro v hv
      simp only [stepOp, Option.some.injEq] at hv
      exact hv ▸ hinit
  | attachLoad r =>
      cases r with
      | none =>
          intro v hv
          simp only [stepOp, Option.some.injEq] at hv
          exact hv ▸ hinit
      | some w =>
          intro v hv
          simp only [stepOp, Option.some.injEq] at hv
          exact hv ▸ hrow w rfl

theorem levelOK_runOps (cfg : ThirstConfig) (ops : List WriteOp) {s : PlayerState}
    (hs : LevelOK s)
    (hinit : 0 ≤ cfg.initialLevel ∧ cfg.initialLevel ≤ 100)
    (hrows : ∀ v, WriteOp.attachLoad (some v) ∈ ops → 0 ≤ v ∧ v ≤ 100) :
    LevelOK (runOps cfg ops s) := by
  induction ops generalizing s with
  | nil => exact hs
  | cons op rest ih =>
      have hstep := levelOK_stepOp cfg hs op hinit
        (fun v hv => hrows v (hv ▸ List.mem_cons_self op rest))
      exact ih hstep (fun v hv => hrows v (List.mem_cons_of_mem op hv))

theorem runOps_append (cfg : ThirstConfig) (l₁ l₂ : List WriteOp) (s : PlayerState) :
    runOps cfg (l₁ ++ l₂) s = runOps cfg l₂ (runOps cfg l₁ s) :=
  List.foldl_append _ _ _ _

theorem getD_mem_range (cfg : ThirstConfig) {s : PlayerState} (hs : LevelOK s)
    (hinit : 0 ≤ cfg.initialLevel ∧ cfg.initialLevel ≤ 100) :
    0 ≤ s.level.getD cfg.initialLevel ∧ s.level.getD cfg.initialLevel ≤ 100 := by
  cases h : s.level with
  | none => simpa using hinit
  | some v => simpa using hs v h

/-! ### Claim theorems: C1 and C2 -/

/-- C1 (amended): every write that goes through `_apply_thirst_delta`
(per-tick decay and consumption deltas) is clamped into `[0,100]`, and a
run ending in a `-1000` then `+1000` consumption yields exactly `100`;
but the death reset and the attach load store the configured initial
level or the durable row value without clamping, so the `[0,100]`
invariant at every observation point holds only under the hypotheses that
the configured initial level and every loaded durable value lie in
`[0,100]`. -/
theorem C1_applyDelta_clamped (cfg : ThirstConfig) (ops : List WriteOp) (s0 : PlayerState)
    (hinit : 0 ≤ cfg.initialLevel ∧ cfg.initialLevel ≤ 100)
    (hrows : ∀ v, WriteOp.attachLoad (some v) ∈ ops → 0 ≤ v ∧ v ≤ 100)
    (hs0 : s0.level = none) :
    (∀ s : PlayerState, ∀ delta v : ℚ,
        (applyThirstDelta cfg s delta).level = some v → 0 ≤ v ∧ v ≤ 100)
    ∧ (∀ v, (runOps cfg ops s0).level = some v → 0 ≤ v ∧ v ≤ 100)
    ∧ (runOps cfg (ops ++ [WriteOp.consume (-1000), WriteOp.consume 1000]) s0).level
        = some 100 := by
  have hs0ok : LevelOK s0 := fun v hv => by rw [hs0] at hv; exact absurd hv (by simp)
  have hrun : LevelOK (runOps cfg ops s0) := levelOK_runOps cfg ops hs0ok hinit hrows
  refine ⟨fun s delta v hv => levelOK_applyThirstDelta cfg s delta v hv, hrun, ?_⟩
  rw [runOps_append]
  set s1 := runOps cfg ops s0 with hs1
  have hc := getD_mem_range cfg hrun hinit
  have hstep1 : (stepOp cfg s1 (WriteOp.consume (-1000))).level = some 0 := by
    simp only [stepOp, applyThirstDelta]
    congr 1
    exact clampThirst_of_nonpos (by linarith [hc.2])
  show (runOps cfg [WriteOp.consume (-1000), WriteOp.consume 1000] s1).level = some 100
  simp only [runOps, List.foldl_cons, List.foldl_nil]
  simp only [stepOp, applyThirstDelta] at hstep1 ⊢
  rw [Option.some.injEq] at hstep1
  rw [hstep1]
  simp only [Option.getD_some]
  congr 1
  exact clampThirst_of_ge (by norm_num)

/-- Witness for `C1_applyDelta_clamped` at the default configuration with
an empty operation sequence. -/
theorem C1_applyDelta_clamped_witness :
    ((0 : ℚ) ≤ 100 ∧ (100 : ℚ) ≤ 100)
    ∧ (runOps ⟨1/10, 2, 100⟩ ([] ++ [WriteOp.consume (-1000), WriteOp.consume 1000])
        ⟨0, none, false, 20⟩).level = some 100 :=
  ⟨⟨by norm_num, le_refl _⟩,
    (C1_applyDelta_clamped ⟨1/10, 2, 100⟩ [] ⟨0, none, false, 20⟩
      ⟨by norm_num, le_refl _⟩ (fun v hv => absurd hv (by simp)) rfl).2.2⟩

/-- Counterexample to C1 as stated: the attach load stores the durable
row's value without clamping, so loading a durable record holding
`150.5` leaves a stored level outside `[0,100]`. -/
theorem C1_counterexample :
    (runOps ⟨1/10, 2, 100⟩ [WriteOp.attachLoad (some (301/2))]
        ⟨0, none, false, 20⟩).level = some (301/2)
    ∧ ¬ ((301 : ℚ)/2 ≤ 100) := by
  constructor
  · rfl
  · norm_num

/-- C2: the per-tick decay delta is `-(decayPerSecond * movingMultiplier)`
when the moving flag is set and `-(decayPerSecond)` otherwise; with
`decayPerSecond = 0.1` and `movingMultiplier = 2.0` a stationary tick
contributes exactly `-0.1` and a moving tick exactly `-0.2`; when
`decayPerSecond = 0` the delta is exactly `0`; and the tick applies
exactly this delta (through the clamped write) to the stored level. -/
theorem C2_tick_decay_delta (cfg : ThirstConfig)
    (h0 : 0 ≤ cfg.decayPerSecond) (h1 : 1 ≤ cfg.movingMultiplier) :
    (∀ moving, tickDecayDelta cfg moving
        = -(cfg.decayPerSecond * (if moving then cfg.movingMultiplier else 1)))
    ∧ tickDecayDelta ⟨1/10, 2, 100⟩ false = -(1/10)
    ∧ tickDecayDelta ⟨1/10, 2, 100⟩ true = -(2/10)
    ∧ (cfg.decayPerSecond = 0 → ∀ moving, tickDecayDelta cfg moving = 0)
    ∧ (∀ s : PlayerState,
        (tickOnce cfg s).1.level =
          if tickDecayDelta cfg s.moving = 0 then s.level
          else some (clampThirst (s.level.getD cfg.initialLevel
            + tickDecayDelta cfg s.moving))) := by
  have hmul : 0 ≤ cfg.decayPerSecond * cfg.movingMultiplier :=
    mul_nonneg h0 (le_trans zero_le_one h1)
  have hdecay : ∀ moving : Bool,
      0 ≤ (if moving then cfg.decayPerSecond * cfg.movingMultiplier
           else cfg.decayPerSecond) := by
    intro moving
    cases moving
    · simpa using h0
    · simpa using hmul
  have hdelta : ∀ moving : Bool, tickDecayDelta cfg moving =
      if 0 < (if moving then cfg.decayPerSecond * cfg.movingMultiplier
              else cfg.decayPerSecond)
      then -(if moving then cfg.decayPerSecond * cfg.movingMultiplier
             else cfg.decayPerSecond)
      else 0 := fun _ => rfl
  have habs : ∀ d : ℚ, 0 ≤ d → (if 0 < d then -d else 0) = -d := by
    intro d hd
    rcases lt_or_eq_of_le hd with h | h
    · rw [if_pos h]
    · rw [if_neg (by rw [← h]; exact lt_irrefl 0), ← h, neg_zero]
  have hmain : ∀ moving, tickDecayDelta cfg moving
      = -(cfg.decayPerSecond * (if moving then cfg.movingMultiplier else 1)) := by
    intro moving
    rw [hdelta moving, habs _ (hdecay moving)]
    cases moving
    · simp
    · simp
  refine ⟨hmain, by norm_num [tickDecayDelta], by norm_num [tickDecayDelta], ?_, ?_⟩
  · intro hz moving
    rw [hmain moving, hz]
    ring
  · intro s
    have hd0 : 0 ≤ (if s.moving then cfg.decayPerSecond * cfg.movingMultiplier
        else cfg.decayPerSecond) := hdecay s.moving
    rw [tickOnce_fst_level, hdelta s.moving]
    rcases lt_or_eq_of_le hd0 with hpos | hzero
    · have hne : ¬ ((if 0 < (if s.moving = true then
          cfg.decayPerSecond * cfg.movingMultiplier else cfg.decayPerSecond)
          then -(if s.moving = true then cfg.decayPerSecond * cfg.movingMultiplier
            else cfg.decayPerSecond) else 0) = 0) := by
        rw [if_pos hpos, neg_eq_zero]
        exact ne_of_gt hpos
      rw [if_pos hpos, if_neg hne, if_pos hpos]
      rfl
    · have hnp : ¬ (0 < (if s.moving = true then
          cfg.decayPerSecond * cfg.movingMultiplier else cfg.decayPerSecond)) := by
        rw [← hzero]
        exact lt_irrefl 0
      simp only [if_neg hnp]
      simp

/-- Witness for `C2_tick_decay_delta` at the default configuration. -/
theorem C2_tick_decay_delta_witness :
    ((0 : ℚ) ≤ 1/10 ∧ (1 : ℚ) ≤ 2)
    ∧ tickDecayDelta ⟨1/10, 2, 100⟩ false = -(1/10) :=
  ⟨⟨by norm_num, by norm_num⟩,
    (C2_tick_decay_delta ⟨1/10, 2, 100⟩ (by norm_num) (by norm_num)).2.1⟩

/-! ### Threshold cadence (C3) -/

theorem tickOnce_timer (cfg : ThirstConfig) (s : PlayerState) :
    (tickOnce cfg s).1.timer = if 10 ≤ s.timer + 1 then 0 else s.timer + 1 := rfl

theorem tickOnce_snd (cfg : ThirstConfig) (s : PlayerState) :
    (tickOnce cfg s).2 =
      if 10 ≤ s.timer + 1 then
        (if (tickOnce cfg s).1.level.getD cfg.initialLevel ≤ 0
         then thirstDamageFires cfg (tickOnce cfg s).1.health (tickOnce cfg s).1.level
         else false)
      else false := rfl

theorem tickOnce_health (cfg : ThirstConfig) (s : PlayerState) :
    (tickOnce cfg s).1.health = s.health := by
  by_cases hpos : 0 < (if s.moving then cfg.decayPerSecond * cfg.movingMultiplier
      else cfg.decayPerSecond)
  · simp [tickOnce, hpos, applyThirstDelta]
  · simp [tickOnce, hpos]

theorem tickOnce_level_step (cfg : ThirstConfig) {s : PlayerState} {v : ℚ}
    (hv : s.level = some v) (hvle : v ≤ 0) :
    ∃ w, w ≤ 0 ∧ (tickOnce cfg s).1.level = some w := by
  rw [tickOnce_fst_level]
  by_cases hpos : 0 < (if s.moving = true then
      cfg.decayPerSecond * cfg.movingMultiplier else cfg.decayPerSecond)
  · refine ⟨0, le_refl 0, ?_⟩
    rw [if_pos hpos]
    simp only [applyThirstDelta, hv, Option.getD_some]
    rw [clampThirst_of_nonpos (by linarith)]
  · exact ⟨v, hvle, by rw [if_neg hpos]; exact hv⟩

theorem iterTick_held (cfg : ThirstConfig) (l0 hp : ℚ) (mv : Bool) (hl : l0 ≤ 0) :
    ∀ n, (iterTick cfg ⟨0, some l0, mv, hp⟩ n).timer = n % 10
      ∧ (∃ v, v ≤ 0 ∧ (iterTick cfg ⟨0, some l0, mv, hp⟩ n).level = some v)
      ∧ (iterTick cfg ⟨0, some l0, mv, hp⟩ n).health = hp := by
  intro n
  induction n with
  | zero => exact ⟨rfl, ⟨l0, hl, rfl⟩, rfl⟩
  | succ n ih =>
      obtain ⟨ht, ⟨v, hv0, hv⟩, hhp⟩ := ih
      refine ⟨?_, ?_, ?_⟩
      · show (tickOnce cfg (iterTick cfg ⟨0, some l0, mv, hp⟩ n)).1.timer = (n + 1) % 10
        rw [tickOnce_timer, ht]
        by_cases h10 : 10 ≤ n % 10 + 1
        · rw [if_pos h10]; omega
        · rw [if_neg h10]; omega
      · exact tickOnce_level_step cfg hv hv0
      · show (tickOnce cfg (iterTick cfg ⟨0, some l0, mv, hp⟩ n)).1.health = hp
        rw [tickOnce_health, hhp]

theorem firedAt_iff_of_held (cfg : ThirstConfig) (l0 hp : ℚ) (mv : Bool)
    (hl : l0 ≤ 0) (hh : 0 < hp) (n : ℕ) :
    firedAt cfg ⟨0, some l0, mv, hp⟩ n = true ↔ n % 10 = 9 := by
  obtain ⟨ht, ⟨v, hv0, hv⟩, hhp⟩ := iterTick_held cfg l0 hp mv hl n
  obtain ⟨w, hw0, hw⟩ := tickOnce_level_step cfg hv hv0
  unfold firedAt
  rw [tickOnce_snd, hw, tickOnce_health, hhp, ht]
  simp only [Option.getD_some]
  rw [if_pos hw0]
  unfold thirstDamageFires
  rw [if_neg (not_le.mpr hh)]
  simp only [Option.getD_some]
  rw [if_neg (not_lt.mpr hw0)]
  constructor
  · intro hfired
    by_cases h9 : 10 ≤ n % 10 + 1
    · omega
    · rw [if_neg h9] at hfired
      exact absurd hfired (by simp)
  · intro h9
    rw [if_pos (by omega)]

theorem tickOnce_no_fire_of_pos (cfg : ThirstConfig) (s : PlayerState) (v : ℚ)
    (hv : (tickOnce cfg s).1.level = some v) (hpos : 0 < v) :
    (tickOnce cfg s).2 = false := by
  rw [tickOnce_snd, hv]
  simp only [Option.getD_some]
  rw [if_neg (not_le.mpr hpos)]
  simp

theorem tickOnce_no_fire_of_dead (cfg : ThirstConfig) (s : PlayerState)
    (hh : s.health ≤ 0) : (tickOnce cfg s).2 = false := by
  rw [tickOnce_snd, tickOnce_health]
  unfold thirstDamageFires
  rw [if_pos hh]
  simp

/-- C3: with the level held at or below `0` and the player alive, starting
from a zero check counter, the damage side effect fires exactly on every
10th tick (once per aligned 10-tick window, never twice within any 10
consecutive ticks); the counter increments once per tick and resets to `0`
on the tick where it reaches 10; and the damage callback re-reads the
current level and no-ops when it is above 0 at evaluation time or when the
player is no longer alive. -/
theorem C3_threshold_cadence (cfg : ThirstConfig) (l0 hp : ℚ) (mv : Bool)
    (hl : l0 ≤ 0) (hh : 0 < hp) :
    (∀ s : PlayerState, (tickOnce cfg s).1.timer
        = if 10 ≤ s.timer + 1 then 0 else s.timer + 1)
    ∧ (∀ n, firedAt cfg ⟨0, some l0, mv, hp⟩ n = true ↔ n % 10 = 9)
    ∧ (∀ k, firedAt cfg ⟨0, some l0, mv, hp⟩ (10 * k + 9) = true)
    ∧ (∀ m n₁ n₂, m ≤ n₁ → n₁ < m + 10 → m ≤ n₂ → n₂ < m + 10 →
        firedAt cfg ⟨0, some l0, mv, hp⟩ n₁ = true →
        firedAt cfg ⟨0, some l0, mv, hp⟩ n₂ = true → n₁ = n₂)
    ∧ (∀ s : PlayerState, ∀ v : ℚ, (tickOnce cfg s).1.level = some v → 0 < v →
        (tickOnce cfg s).2 = false)
    ∧ (∀ s : PlayerState, s.health ≤ 0 → (tickOnce cfg s).2 = false) := by
  have hiff := firedAt_iff_of_held cfg l0 hp mv hl hh
  refine ⟨fun s => tickOnce_timer cfg s, hiff, ?_, ?_,
    fun s v hv hpos => tickOnce_no_fire_of_pos cfg s v hv hpos,
    fun s hsh => tickOnce_no_fire_of_dead cfg s hsh⟩
  · intro k
    rw [hiff]
    omega
  · intro m n₁ n₂ h₁ h₂ h₃ h₄ hf₁ hf₂
    rw [hiff] at hf₁ hf₂
    omega

/-- Witness for `C3_threshold_cadence` at the default configuration, a
level held at `0` and health `20`. -/
theorem C3_threshold_cadence_witness :
    ((0 : ℚ) ≤ 0 ∧ (0 : ℚ) < 20)
    ∧ (∀ k, firedAt ⟨1/10, 2, 100⟩ ⟨0, some 0, false, 20⟩ (10 * k + 9) = true) :=
  ⟨⟨le_refl 0, by norm_num⟩,
    (C3_threshold_cadence ⟨1/10, 2, 100⟩ 0 20 false
      (le_refl 0) (by norm_num)).2.2.1⟩

/-! ### Movement debounce (C7) -/

theorem runOps_move_fixed (cfg : ThirstConfig) (n : ℕ) :
    ∀ s : PlayerState, s.moving = true →
      runOps cfg (List.replicate n WriteOp.move) s = s := by
  induction n with
  | zero => intro s _; rfl
  | succ n ih =>
      intro s hs
      rw [List.replicate_succ]
      show runOps cfg (List.replicate n WriteOp.move) (stepOp cfg s WriteOp.move) = s
      have hstep : stepOp cfg s WriteOp.move = s := by
        cases s with
        | mk t l m h => cases hs; rfl
      rw [hstep]
      exact ih s hs

/-- C7: any positive number of movement signals inside one tick window has
exactly the effect of a single signal — the tick's decay step sees the
moving flag once — and the flag is cleared by the tick no matter how many
signals arrived; with the flag set the level change of the tick is the
single multiplied decay. -/
theorem C7_debounce (cfg : ThirstConfig) (s : PlayerState) (n : ℕ) (hn : 1 ≤ n) :
    runOps cfg (List.replicate n WriteOp.move ++ [WriteOp.tick]) s
      = runOps cfg [WriteOp.move, WriteOp.tick] s
    ∧ (runOps cfg (List.replicate n WriteOp.move ++ [WriteOp.tick]) s).moving = false
    ∧ (∀ s' : PlayerState, (tickOnce cfg s').1.moving = false)
    ∧ (∀ s' : PlayerState, s'.moving = true →
        0 < cfg.decayPerSecond * cfg.movingMultiplier →
        (tickOnce cfg s').1.level = some (clampThirst
          (s'.level.getD cfg.initialLevel - cfg.decayPerSecond * cfg.movingMultiplier))) := by
  obtain ⟨m, rfl⟩ : ∃ m, n = m + 1 := ⟨n - 1, by omega⟩
  have hfix := runOps_move_fixed cfg m (stepOp cfg s WriteOp.move) rfl
  have hmain : runOps cfg (List.replicate (m + 1) WriteOp.move ++ [WriteOp.tick]) s
      = runOps cfg [WriteOp.move, WriteOp.tick] s := by
    rw [runOps_append, List.replicate_succ]
    show runOps cfg [WriteOp.tick]
        (runOps cfg (List.replicate m WriteOp.move) (stepOp cfg s WriteOp.move)) = _
    rw [hfix]
    rfl
  refine ⟨hmain, ?_, fun s' => rfl, ?_⟩
  · rw [hmain]
    rfl
  · intro s' hmv hpos
    rw [tickOnce_fst_level, hmv]
    simp only [if_true]
    rw [if_pos hpos]
    simp only [applyThirstDelta]
    rw [sub_eq_add_neg]

/-- Witness for `C7_debounce`: three signals then a tick equal one signal
then a tick. -/
theorem C7_debounce_witness :
    1 ≤ 3
    ∧ runOps ⟨1/10, 2, 100⟩ (List.replicate 3 WriteOp.move ++ [WriteOp.tick])
        ⟨0, some 50, false, 20⟩
      = runOps ⟨1/10, 2, 100⟩ [WriteOp.move, WriteOp.tick] ⟨0, some 50, false, 20⟩ :=
  ⟨by norm_num,
    (C7_debounce ⟨1/10, 2, 100⟩ ⟨0, some 50, false, 20⟩ 3 (by norm_num)).1⟩

/-! ### Per-entity error isolation (C4) -/

theorem runTickLoop_processed (ents : List TickEntity) :
    (runTickLoop ents).1
      = (ents.takeWhile (fun x => !x.raises)).map TickEntity.ident := by
  induction ents with
  | nil => rfl
  | cons e rest ih =>
      by_cases he : e.raises
      · simp [runTickLoop, he, List.takeWhile_cons]
      · simp only [runTickLoop, if_neg he, List.takeWhile_cons]
        simp only [Bool.not_eq_true'] at he
        simp [he, ih]

theorem runTickLoop_err_of_mem {ents : List TickEntity} {e : TickEntity}
    (he : e ∈ ents) (hraises : e.raises = true) :
    (runTickLoop ents).2.isSome = true := by
  induction ents with
  | nil => cases he
  | cons f rest ih =>
      by_cases hf : f.raises
      · simp [runTickLoop, hf]
      · rcases List.mem_cons.mp he with rfl | hmem
        · exact absurd hraises hf
        · simp only [runTickLoop, if_neg hf]
          exact ih hmem

/-- C4 (amended): an exception raised while processing one entity aborts
the processing of all remaining entities of that tick — the entities
processed are exactly those strictly before the first raising one — and
the tick-body-wide `try/except` catches it, logs it, and returns
normally, so the scheduler survives and every later interval still runs
its tick body. -/
theorem C4_tick_error_aborts_loop (ents : List TickEntity) (e : TickEntity)
    (he : e ∈ ents) (hraises : e.raises = true) :
    (runTickLoop ents).1
        = (ents.takeWhile (fun x => !x.raises)).map TickEntity.ident
    ∧ (tickBodyCaught ents).2 = true
    ∧ (∀ intervals : List (List TickEntity),
        (runScheduler intervals).length = intervals.length
        ∧ ∀ later : List TickEntity,
            runScheduler (intervals ++ [later])
              = runScheduler intervals ++ [tickBodyCaught later]) := by
  refine ⟨runTickLoop_processed ents, runTickLoop_err_of_mem he hraises, ?_⟩
  intro intervals
  constructor
  · exact List.length_map _ _
  · intro later
    simp [runScheduler]

/-- Witness for `C4_tick_error_aborts_loop`: a two-player tick where the
first player's processing raises. -/
theorem C4_tick_error_aborts_loop_witness :
    (TickEntity.mk "a" true ∈ [TickEntity.mk "a" true, TickEntity.mk "b" false]
      ∧ (TickEntity.mk "a" true).raises = true)
    ∧ (tickBodyCaught [TickEntity.mk "a" true, TickEntity.mk "b" false]).2 = true :=
  ⟨⟨List.mem_cons_self _ _, rfl⟩,
    (C4_tick_error_aborts_loop [TickEntity.mk "a" true, TickEntity.mk "b" false]
      (TickEntity.mk "a" true) (List.mem_cons_self _ _) rfl).2.1⟩

/-- Counterexample to C4 as stated: with players `a` (processing raises)
and `b` in that order, `b` is not processed in that tick — the failure is
not isolated to `a`. -/
theorem C4_counterexample :
    (runTickLoop [TickEntity.mk "a" true, TickEntity.mk "b" false]).1 = []
    ∧ "b" ∉ (runTickLoop [TickEntity.mk "a" true, TickEntity.mk "b" false]).1 := by
  refine ⟨rfl, ?_⟩
  rw [show (runTickLoop [TickEntity.mk "a" true, TickEntity.mk "b" false]).1 = []
    from rfl]
  simp

/-! ### Durable store lemmas (C5, C6) -/

theorem queryThirst_eq_none_iff (db : ThirstDB) (x : String) :
    queryThirst db x = none ↔ rowsFor db x = [] := by
  unfold queryThirst rowsFor
  rw [List.find?_eq_none, List.filter_eq_nil_iff]

theorem rowsFor_append (db db' : ThirstDB) (x : String) :
    rowsFor (db ++ db') x = rowsFor db x ++ rowsFor db' x := by
  simp [rowsFor]

theorem rowsFor_singleton_self (x pname : String) (v : ℚ) (now : ℕ) :
    rowsFor [⟨x, pname, v, now⟩] x = [⟨x, pname, v, now⟩] := by
  simp [rowsFor]

theorem rowsFor_map_update (db : ThirstDB) (x : String) (u : ThirstRow → ThirstRow)
    (hx : ∀ r, (u r).xuid = r.xuid) :
    rowsFor (db.map u) x = (rowsFor db x).map u := by
  induction db with
  | nil => rfl
  | cons r rest ih =>
      have hpr : ((u r).xuid == x) = (r.xuid == x) := by rw [hx]
      by_cases h : r.xuid == x
      · simp only [rowsFor, List.map_cons, List.filter_cons, hpr, h, if_pos]
        exact congrArg (u r :: ·) ih
      · simp only [rowsFor, List.map_cons, List.filter_cons, hpr, h]
        exact ih

theorem mem_rowsFor_xuid {db : ThirstDB} {x : String} {r : ThirstRow}
    (hr : r ∈ rowsFor db x) : r.xuid = x := by
  have := (List.mem_filter.mp hr).2
  exact eq_of_beq this

theorem persist_rowsFor (cfg : ThirstConfig) (db : ThirstDB) (mem : ThirstMem)
    (x pname : String) (now : ℕ) (hpk : (rowsFor db x).length ≤ 1) :
    rowsFor (persistPlayerThirst cfg db mem x pname now) x
      = [⟨x, pname, (mem x).getD cfg.initialLevel, now⟩] := by
  cases hq : queryThirst db x with
  | none =>
      have hnil : rowsFor db x = [] := (queryThirst_eq_none_iff db x).mp hq
      simp only [persistPlayerThirst, hq]
      rw [rowsFor_append, hnil, rowsFor_singleton_self]
      rfl
  | some r =>
      have hne : rowsFor db x ≠ [] := by
        intro hnil
        rw [(queryThirst_eq_none_iff db x).mpr hnil] at hq
        cases hq
      obtain ⟨r0, hr0⟩ : ∃ r0, rowsFor db x = [r0] := by
        cases hrows : rowsFor db x with
        | nil => exact absurd hrows hne
        | cons a l =>
            cases l with
            | nil => exact ⟨a, rfl⟩
            | cons b l2 => rw [hrows] at hpk; simp at hpk
      have hr0mem : r0 ∈ rowsFor db x := by
        rw [hr0]
        exact List.mem_singleton.mpr rfl
      have hr0x : r0.xuid = x := mem_rowsFor_xuid hr0mem
      have hxid : ∀ r' : ThirstRow,
          ((if r'.xuid == x
            then ThirstRow.mk r'.xuid pname ((mem x).getD cfg.initialLevel) now
            else r') : ThirstRow).xuid = r'.xuid := by
        intro r'
        by_cases h : r'.xuid == x
        · rw [if_pos h]
        · rw [if_neg h]
      simp only [persistPlayerThirst, hq]
      rw [rowsFor_map_update db x _ hxid, hr0, List.map_singleton,
        if_pos (beq_iff_eq.mpr hr0x), hr0x]

/-- C5: loading an identity with no durable record returns and stores the
configured initial level and appends exactly one new row for it; loading
an identity whose record holds `42.5` returns and stores `42.5` with the
table unchanged; in both cases the returned level is the in-memory level
after the call. -/
theorem C5_load_on_attach (cfg : ThirstConfig) (db : ThirstDB) (mem : ThirstMem)
    (x pname : String) (now : ℕ) :
    (queryThirst db x = none →
        (loadPlayerThirst cfg db mem x pname now).1 = cfg.initialLevel
      ∧ (loadPlayerThirst cfg db mem x pname now).2.1 x = some cfg.initialLevel
      ∧ (loadPlayerThirst cfg db mem x pname now).2.2
          = db ++ [⟨x, pname, cfg.initialLevel, now⟩]
      ∧ rowsFor (loadPlayerThirst cfg db mem x pname now).2.2 x
          = rowsFor db x ++ [⟨x, pname, cfg.initialLevel, now⟩])
    ∧ (∀ r, queryThirst db x = some r → r.thirst = 85/2 →
        (loadPlayerThirst cfg db mem x pname now).1 = 85/2
      ∧ (loadPlayerThirst cfg db mem x pname now).2.1 x = some (85/2)
      ∧ (loadPlayerThirst cfg db mem x pname now).2.2 = db)
    ∧ (loadPlayerThirst cfg db mem x pname now).2.1 x
        = some (loadPlayerThirst cfg db mem x pname now).1 := by
  refine ⟨?_, ?_, ?_⟩
  · intro hq
    refine ⟨?_, ?_, ?_, ?_⟩
    · simp [loadPlayerThirst, hq]
    · simp [loadPlayerThirst, hq, memSet]
    · simp [loadPlayerThirst, hq]
    · simp only [loadPlayerThirst, hq]
      rw [rowsFor_append, rowsFor_singleton_self]
  · intro r hq hr
    refine ⟨?_, ?_, ?_⟩
    · simp [loadPlayerThirst, hq, hr]
    · simp [loadPlayerThirst, hq, hr, memSet]
    · simp [loadPlayerThirst, hq]
  · cases hq : queryThirst db x with
    | none => simp [loadPlayerThirst, hq, memSet]
    | some r => simp [loadPlayerThirst, hq, memSet]

/-- Witness for `C5_load_on_attach`: attaching to an empty table. -/
theorem C5_load_on_attach_witness :
    queryThirst [] "p1" = none
    ∧ (loadPlayerThirst ⟨1/10, 2, 100⟩ [] (fun _ => none) "p1" "P" 5).1 = 100 :=
  ⟨rfl, ((C5_load_on_attach ⟨1/10, 2, 100⟩ [] (fun _ => none) "p1" "P" 5).1 rfl).1⟩

/-- C6: `_persist_player_thirst` is an upsert — insert when no record for
the xuid exists, otherwise update the matching record's name, level and
timestamp — and saving twice in a row with identical values leaves
exactly one durable record for the identity holding the latest values
(given the primary-key invariant that the table starts with at most one
record for the xuid). -/
theorem C6_idempotent_upsert (cfg : ThirstConfig) (db : ThirstDB) (mem : ThirstMem)
    (x pname : String) (t1 t2 : ℕ) (hpk : (rowsFor db x).length ≤ 1) :
    (queryThirst db x = none →
      persistPlayerThirst cfg db mem x pname t1
        = db ++ [⟨x, pname, (mem x).getD cfg.initialLevel, t1⟩])
    ∧ (∀ r, queryThirst db x = some r →
      persistPlayerThirst cfg db mem x pname t1
        = db.map (fun r' => if r'.xuid == x
            then ⟨r'.xuid, pname, (mem x).getD cfg.initialLevel, t1⟩
            else r'))
    ∧ rowsFor (persistPlayerThirst cfg db mem x pname t1) x
        = [⟨x, pname, (mem x).getD cfg.initialLevel, t1⟩]
    ∧ rowsFor (persistPlayerThirst cfg
          (persistPlayerThirst cfg db mem x pname t1) mem x pname t2) x
        = [⟨x, pname, (mem x).getD cfg.initialLevel, t2⟩] := by
  have h1 := persist_rowsFor cfg db mem x pname t1 hpk
  refine ⟨?_, ?_, h1, ?_⟩
  · intro hq
    simp only [persistPlayerThirst, hq]
  · intro r hq
    simp only [persistPlayerThirst, hq]
  · exact persist_rowsFor cfg _ mem x pname t2 (by rw [h1]; exact le_refl 1)

/-- Witness for `C6_idempotent_upsert`: two identical saves into an empty
table. -/
theorem C6_idempotent_upsert_witness :
    (rowsFor ([] : ThirstDB) "p1").length ≤ 1
    ∧ rowsFor (persistPlayerThirst ⟨1/10, 2, 100⟩
        (persistPlayerThirst ⟨1/10, 2, 100⟩ [] (fun _ => some 30) "p1" "P" 5)
        (fun _ => some 30) "p1" "P" 6) "p1"
      = [⟨"p1", "P", 30, 6⟩] :=
  ⟨by simp [rowsFor],
    by
      have h := (C6_idempotent_upsert ⟨1/10, 2, 100⟩ [] (fun _ => some 30) "p1" "P" 5 6
        (by simp [rowsFor])).2.2.2
      simpa using h⟩

/-! ### Settings loading (C8) -/

/-- C8 (amended): a setting whose value comes back missing or empty is
independently recovered by substituting its documented default and
writing it back, and the stored decay and multiplier are clamped with
`max(0,·)` / `max(1,·)`, so `decayPerSecond ≥ 0` and
`movingMultiplier ≥ 1` always hold after loading; but an unparsable
value raises out of the shared `try`, so the settings after it are
neither loaded nor defaulted (only an error is logged and earlier
results are kept), and a parsed `thirst_initial` is stored unclamped,
with no guarantee that it lies in `[0,100]`. -/
theorem C8_load_settings (st : SettingsStore) (old : ThirstConfig)
    (h0 : 0 ≤ old.decayPerSecond) (h1 : 1 ≤ old.movingMultiplier) :
    (0 ≤ (loadThirstSettings st old).cfg.decayPerSecond
      ∧ 1 ≤ (loadThirstSettings st old).cfg.movingMultiplier)
    ∧ (st.decayVal = ConfigVal.absent →
        (loadThirstSettings st old).cfg.decayPerSecond = 1/10
        ∧ (loadThirstSettings st old).wroteDecayDefault = true)
    ∧ (st.decayVal ≠ ConfigVal.unparsable → st.multVal = ConfigVal.absent →
        (loadThirstSettings st old).cfg.movingMultiplier = 2
        ∧ (loadThirstSettings st old).wroteMultDefault = true)
    ∧ (st.decayVal ≠ ConfigVal.unparsable → st.multVal ≠ ConfigVal.unparsable →
        st.initVal = ConfigVal.absent →
        (loadThirstSettings st old).cfg.initialLevel = 100
        ∧ (loadThirstSettings st old).wroteInitDefault = true)
    ∧ (st.decayVal = ConfigVal.unparsable →
        loadThirstSettings st old = ⟨old, false, false, false, true⟩)
    ∧ (st.decayVal ≠ ConfigVal.unparsable → st.multVal = ConfigVal.unparsable →
        (loadThirstSettings st old).cfg.movingMultiplier = old.movingMultiplier
        ∧ (loadThirstSettings st old).cfg.initialLevel = old.initialLevel
        ∧ (loadThirstSettings st old).errored = true
        ∧ (loadThirstSettings st old).wroteMultDefault = false
        ∧ (loadThirstSettings st old).wroteInitDefault = false)
    ∧ (st.decayVal ≠ ConfigVal.unparsable → st.multVal ≠ ConfigVal.unparsable →
        st.initVal = ConfigVal.unparsable →
        (loadThirstSettings st old).cfg.initialLevel = old.initialLevel
        ∧ (loadThirstSettings st old).errored = true
        ∧ (loadThirstSettings st old).wroteInitDefault = false)
    ∧ (∀ q, st.decayVal ≠ ConfigVal.unparsable → st.multVal ≠ ConfigVal.unparsable →
        st.initVal = ConfigVal.value q →
        (loadThirstSettings st old).cfg.initialLevel = q) := by
  obtain ⟨dv, mv, iv⟩ := st
  cases dv <;> cases mv <;> cases iv <;>
    simp [loadThirstSettings, loadMultStep, loadInitStep, h0, h1,
      le_max_left, le_max_right]

/-- Witness for `C8_load_settings`: all three settings missing from the
store. -/
theorem C8_load_settings_witness :
    ((0 : ℚ) ≤ 1/10 ∧ (1 : ℚ) ≤ 2)
    ∧ ((loadThirstSettings ⟨ConfigVal.absent, ConfigVal.absent, ConfigVal.absent⟩
        ⟨1/10, 2, 100⟩).cfg.decayPerSecond = 1/10
      ∧ (loadThirstSettings ⟨ConfigVal.absent, ConfigVal.absent, ConfigVal.absent⟩
        ⟨1/10, 2, 100⟩).wroteDecayDefault = true) :=
  ⟨⟨by norm_num, by norm_num⟩,
    (C8_load_settings ⟨ConfigVal.absent, ConfigVal.absent, ConfigVal.absent⟩
      ⟨1/10, 2, 100⟩ (by norm_num) (by norm_num)).2.1 rfl⟩

/-- Counterexample to C8 as stated: a stored `thirst_initial` of `150`
is adopted unclamped, violating `initialLevel ∈ [0,100]`; and with an
unparsable `thirst_decay_per_second` the missing
`thirst_moving_multiplier` is not recovered with its default — the load
aborts with only a logged error. -/
theorem C8_counterexample :
    ((loadThirstSettings ⟨ConfigVal.value (1/10), ConfigVal.value 2,
        ConfigVal.value 150⟩ ⟨1/10, 2, 100⟩).cfg.initialLevel = 150
      ∧ ¬ ((150 : ℚ) ≤ 100))
    ∧ ((loadThirstSettings ⟨ConfigVal.unparsable, ConfigVal.absent,
        ConfigVal.absent⟩ ⟨1/10, 2, 100⟩).wroteMultDefault = false
      ∧ (loadThirstSettings ⟨ConfigVal.unparsable, ConfigVal.absent,
        ConfigVal.absent⟩ ⟨1/10, 2, 100⟩).errored = true) :=
  ⟨⟨rfl, by norm_num⟩, rfl, rfl⟩

/-! ### Fallback timer cancellation (C9) -/

theorem runTimer_append (s : TimerSt) (l1 l2 : List TimerAct) :
    runTimer s (l1 ++ l2) = (runTimer s l1).bind (fun s1 => runTimer s1 l2) := by
  induction l1 generalizing s with
  | nil => rfl
  | cons a rest ih =>
      cases hstep : timerStep s a with
      | none => simp [runTimer, hstep]
      | some s1 => simp [runTimer, hstep, ih]

/-- With the stop flag set, the number of later firings in any valid
continuation is bounded by the pending work: one for a still-armed timer
plus one for a worker already past the stop check. -/
theorem runTimer_count_fire_le (l : List TimerAct) :
    ∀ s : TimerSt, s.stopFlag = true → ∀ s', runTimer s l = some s' →
      l.count TimerAct.fire
        ≤ (if s.armed then 1 else 0) + (if s.scheduling then 1 else 0) := by
  induction l with
  | nil =>
      intro s _ s' _
      simp
  | cons a rest ih =>
      intro s hstop s' hrun
      cases a with
      | fire =>
          by_cases ha : s.armed
          · have hnext : runTimer ⟨s.stopFlag, false, true, s.scheduling⟩ rest
                = some s' := by
              simpa [runTimer, timerStep, ha] using hrun
            have hcount := ih ⟨s.stopFlag, false, true, s.scheduling⟩ hstop s' hnext
            cases hsched : s.scheduling <;>
              simp [List.count_cons, ha, hsched] at hcount ⊢ <;> omega
          · simp [runTimer, timerStep, ha] at hrun
      | finishCheck =>
          by_cases hr : s.running
          · have hnext : runTimer ⟨s.stopFlag, s.armed, false,
                if s.stopFlag then s.scheduling else true⟩ rest = some s' := by
              simpa [runTimer, timerStep, hr] using hrun
            have hcount := ih ⟨s.stopFlag, s.armed, false,
                if s.stopFlag then s.scheduling else true⟩ hstop s' hnext
            cases ha : s.armed <;> cases hsched : s.scheduling <;>
              simp [List.count_cons, ha, hsched, hstop] at hcount ⊢ <;> omega
          · simp [runTimer, timerStep, hr] at hrun
      | arm =>
          by_cases hs : s.scheduling
          · have hnext : runTimer ⟨s.stopFlag, true, s.running, false⟩ rest
                = some s' := by
              simpa [runTimer, timerStep, hs] using hrun
            have hcount := ih ⟨s.stopFlag, true, s.running, false⟩ hstop s' hnext
            cases ha : s.armed <;>
              simp [List.count_cons, ha, hs] at hcount ⊢ <;> omega
          · simp [runTimer, timerStep, hs] at hrun
      | cancel =>
          have hnext : runTimer ⟨true, false, s.running, s.scheduling⟩ rest
              = some s' := by
            simpa [runTimer, timerStep] using hrun
          have hcount := ih ⟨true, false, s.running, s.scheduling⟩ rfl s' hnext
          cases ha : s.armed <;> cases hsched : s.scheduling <;>
            simp [List.count_cons, ha, hsched] at hcount ⊢ <;> omega

/-- C9 (amended): `cancel()` sets the stop flag, which `_schedule`
consults before arming, and cancels the currently-armed timer; but
because the stop check and the `threading.Timer` creation/start are
separate unlocked statements on the worker thread, a `cancel`
interleaving between them lets the worker arm and fire once more after
`cancel()` has returned.  At most one such post-cancel firing ever
occurs — the following `_schedule` sees the flag — and when `cancel`
does not arrive inside the check-to-arm window (the worker is not
mid-`_schedule`), no firing at all occurs after `cancel`. -/
theorem C9_cancel_limits_firing (l1 l2 : List TimerAct) (s1 s' : TimerSt)
    (h1 : runTimer timerInit l1 = some s1)
    (h : runTimer timerInit (l1 ++ TimerAct.cancel :: l2) = some s') :
    l2.count TimerAct.fire ≤ 1
    ∧ (s1.scheduling = false → TimerAct.fire ∉ l2) := by
  rw [runTimer_append, h1] at h
  have h2 : runTimer ⟨true, false, s1.running, s1.scheduling⟩ l2 = some s' := by
    simpa [runTimer, timerStep] using h
  have hcount := runTimer_count_fire_le l2 ⟨true, false, s1.running, s1.scheduling⟩
    rfl s' h2
  constructor
  · cases hsched : s1.scheduling <;> simp [hsched] at hcount <;> omega
  · intro hsched
    rw [hsched] at hcount
    simp only [if_neg Bool.false_ne_true, Nat.add_zero] at hcount
    have hz : l2.count TimerAct.fire = 0 := Nat.le_zero.mp hcount
    exact List.count_eq_zero.mp hz

/-- Witness for `C9_cancel_limits_firing`: cancel arrives with the
worker idle and the timer armed; nothing fires afterwards. -/
theorem C9_cancel_limits_firing_witness :
    (runTimer timerInit [] = some timerInit
      ∧ runTimer timerInit ([] ++ TimerAct.cancel :: []) = some ⟨true, false, false, false⟩)
    ∧ (([] : List TimerAct).count TimerAct.fire ≤ 1
      ∧ (timerInit.scheduling = false → TimerAct.fire ∉ ([] : List TimerAct))) :=
  ⟨⟨rfl, rfl⟩,
    C9_cancel_limits_firing [] [] timerInit ⟨true, false, false, false⟩ rfl rfl⟩

/-- Counterexample to C9 as stated: the worker passes the `_stop` check,
`cancel()` then runs to completion (setting the flag and cancelling the
old, already-expired timer), and the worker still arms a fresh timer
which fires — a firing strictly after `cancel()` returned, not an
already-dispatched one completing. -/
theorem C9_counterexample :
    runTimer timerInit ([TimerAct.fire, TimerAct.finishCheck]
        ++ TimerAct.cancel :: [TimerAct.arm, TimerAct.fire, TimerAct.finishCheck])
      = some ⟨true, false, false, false⟩
    ∧ TimerAct.fire ∈ [TimerAct.arm, TimerAct.fire, TimerAct.finishCheck] := by
  exact ⟨rfl, by simp⟩

/-! ### GetSetting behaviour (C10) -/

theorem find?_eq_none_of_not_has {d : SettingDict} {k : String}
    (h : dictHas d k = false) : d.find? (fun p => p.1 == k) = none := by
  rw [List.find?_eq_none]
  intro p hp hbeq
  have hhas : dictHas d k = true := by
    rw [dictHas, List.any_eq_true]
    exact ⟨p, hp, hbeq⟩
  rw [h] at hhas
  cases hhas

theorem dictGet_append_self (d : SettingDict) (k v : String) :
    dictHas d k = false → dictGet (d ++ [(k, v)]) k = v := by
  induction d with
  | nil =>
      intro _
      simp [dictGet]
  | cons p rest ih =>
      intro h
      cases hpk : (p.1 == k) with
      | true =>
          rw [dictHas, List.any_cons, hpk] at h
          simp at h
      | false =>
          have h2 : dictHas rest k = false := by
            rw [dictHas, List.any_cons, hpk] at h
            simpa [dictHas] using h
          have hrec := ih h2
          rw [List.cons_append]
          unfold dictGet at hrec ⊢
          rw [List.find?_cons_of_neg _ (by simp [hpk])]
          exact hrec

theorem dictHas_append_self (d : SettingDict) (k v : String) :
    dictHas (d ++ [(k, v)]) k = true := by
  rw [dictHas, List.any_append]
  simp

/-- C10: `GetSetting` returns `None` both when the key was missing (in
which case it is first auto-created with an empty value) and when the
key is stored with an empty value; it never returns the empty string, so
a never-set key and a key explicitly set to empty are indistinguishable
to callers; and after any `GetSetting` call the key exists in the
store. -/
theorem C10_get_setting (d : SettingDict) (k : String) :
    (dictHas d k = false →
        (GetSetting d k).1 = none
      ∧ (GetSetting d k).2 = d ++ [(k, "")]
      ∧ dictGet (GetSetting d k).2 k = "")
    ∧ (dictHas d k = true → dictGet d k = "" → (GetSetting d k).1 = none)
    ∧ (GetSetting d k).1 ≠ some ""
    ∧ dictHas (GetSetting d k).2 k = true := by
  refine ⟨?_, ?_, ?_, ?_⟩
  · intro h
    have hget : dictGet (d ++ [(k, "")]) k = "" := dictGet_append_self d k "" h
    refine ⟨?_, ?_, ?_⟩
    · simp [GetSetting, h, hget]
    · simp [GetSetting, h]
    · simp [GetSetting, h, hget]
  · intro h hget
    simp [GetSetting, h, hget]
  · unfold GetSetting
    by_cases hv : dictGet (if dictHas d k then d else d ++ [(k, "")]) k = ""
    · simp [hv]
    · simp [hv]
  · cases h : dictHas d k with
    | true => simp [GetSetting, h]
    | false => simpa [GetSetting, h] using dictHas_append_self d k ""

/-- Witness for `C10_get_setting`: a fresh key in an empty store. -/
theorem C10_get_setting_witness :
    dictHas [] "language" = false
    ∧ (GetSetting [] "language").1 = none :=
  ⟨rfl, ((C10_get_setting [] "language").1 rfl).1⟩

end ARS
